import Mathlib

/-!
# Halftone: the shared CPU/GPU layout contract of `ShaderTypes.h`

`src/Halftone/Shaders/ShaderTypes.h` declares two enumerations and two plain
records that are read by the Swift host and by the Metal shader.  This file
embeds those declarations together with the C rules that give them a meaning
(enumerator values, `sizeof`, `alignof`, `offsetof`, array indexing, storing a
scalar into memory) and proves the layout facts the contract relies on.

`float` values are represented by their IEEE-754 binary32 bit pattern, a
natural number below `2 ^ 32`; no floating-point arithmetic is involved, only
the transport of the four bytes.
-/

namespace Halftone

/-! ## Enumerations -/

/-- Header lines 14-17: the declaration of `enum VertexInputIndex`. -/
inductive VertexInputIndex where
  | VertexInputIndexVertices
  | VertexInputIndexUniforms
  deriving DecidableEq, Repr

/-- The integer each enumerator is declared with (`= 0`, `= 1`). -/
def VertexInputIndex.toInt : VertexInputIndex → Int
  | .VertexInputIndexVertices => 0
  | .VertexInputIndexUniforms => 1

/-- The enumerators of `VertexInputIndex` in declaration order. -/
def VertexInputIndex.enumerators : List VertexInputIndex :=
  [.VertexInputIndexVertices, .VertexInputIndexUniforms]

/-- Header lines 20-22: the declaration of `enum TextureIndex`. -/
inductive TextureIndex where
  | TextureIndexScreen
  deriving DecidableEq, Repr

/-- The integer each enumerator is declared with (`= 0`). -/
def TextureIndex.toInt : TextureIndex → Int
  | .TextureIndexScreen => 0

/-- The enumerators of `TextureIndex` in declaration order. -/
def TextureIndex.enumerators : List TextureIndex :=
  [.TextureIndexScreen]

/-! ## Record declarations -/

/-- The two member types that occur in the header. -/
inductive CType where
  | float
  | vector_float2
  deriving DecidableEq, Repr

/-- One member declaration `type name;` of a record. -/
structure Field where
  ty : CType
  name : String
  deriving DecidableEq, Repr

/-- Header lines 25-28: the members of `Vertex`, in declaration order. -/
def Vertex_fields : List Field :=
  [⟨.vector_float2, "position"⟩, ⟨.vector_float2, "texCoord"⟩]

/-- Header lines 31-35: the members of `HalftoneUniforms`, in declaration order. -/
def HalftoneUniforms_fields : List Field :=
  [⟨.float, "dotSize"⟩, ⟨.float, "intensity"⟩, ⟨.vector_float2, "screenSize"⟩]

/-! ## Target description

`float` is a builtin and `vector_float2` comes from `<simd/simd.h>`, which is
not part of the repository: their sizes and alignments are parameters. -/

/-- Sizes and alignments, in bytes, of the two member types on one target. -/
structure TargetABI where
  floatSize : Nat
  floatAlign : Nat
  vec2Size : Nat
  vec2Align : Nat
  deriving DecidableEq, Repr

/-- Value of `sizeof` on a member type. -/
def TargetABI.sizeOf (abi : TargetABI) : CType → Nat
  | .float => abi.floatSize
  | .vector_float2 => abi.vec2Size

/-- Value of `alignof` on a member type. -/
def TargetABI.alignOf (abi : TargetABI) : CType → Nat
  | .float => abi.floatAlign
  | .vector_float2 => abi.vec2Align

/-- C requires the size of every type to be a multiple of its alignment. -/
def TargetABI.WellFormed (abi : TargetABI) : Prop :=
  abi.floatAlign ∣ abi.floatSize ∧ abi.vec2Align ∣ abi.vec2Size

instance (abi : TargetABI) : Decidable abi.WellFormed := by
  unfold TargetABI.WellFormed; infer_instance

/-- The simd target: `vector_float2` is an 8-byte vector aligned to 8. -/
def abiSimd : TargetABI := ⟨4, 4, 8, 8⟩

/-- Modelled from the spec: `<simd/simd.h>` is an external header, and the
spec describes its `vector_float2` as "8 bytes with 4-byte alignment per
component". -/
def abiSpec : TargetABI := ⟨4, 4, 8, 4⟩

/-! ## The C record layout rule -/

/-- Round `off` up to the next multiple of `a`. -/
def alignUp (off a : Nat) : Nat := (off + a - 1) / a * a

/-- Place the members one after the other, starting at `off`: each goes to the
previous end rounded up to its alignment.  Returns the offsets, in declaration
order, paired with the member names. -/
def layoutFrom (abi : TargetABI) : Nat → List Field → List (String × Nat)
  | _, [] => []
  | off, f :: fs =>
    let o := alignUp off (abi.alignOf f.ty)
    (f.name, o) :: layoutFrom abi (o + abi.sizeOf f.ty) fs

/-- End of the last member when the members are placed starting at `off`. -/
def endFrom (abi : TargetABI) : Nat → List Field → Nat
  | off, [] => off
  | off, f :: fs => endFrom abi (alignUp off (abi.alignOf f.ty) + abi.sizeOf f.ty) fs

/-- Offsets of the members of a record. -/
def layout (abi : TargetABI) (fields : List Field) : List (String × Nat) :=
  layoutFrom abi 0 fields

/-- Alignment of a record: the largest alignment among its members. -/
def structAlign (abi : TargetABI) (fields : List Field) : Nat :=
  (fields.map (fun f => abi.alignOf f.ty)).foldl max 1

/-- Value of `sizeof` on a record: the end of the last member rounded up to the
alignment of the record. -/
def structSize (abi : TargetABI) (fields : List Field) : Nat :=
  alignUp (endFrom abi 0 fields) (structAlign abi fields)

/-- Value of `offsetof(record, name)`; `none` when there is no such member. -/
def offsetOf (abi : TargetABI) (fields : List Field) (name : String) : Option Nat :=
  (layout abi fields).lookup name

/-- Sum of the sizes of the members. -/
def fieldSizeSum (abi : TargetABI) (fields : List Field) : Nat :=
  (fields.map (fun f => abi.sizeOf f.ty)).sum

/-- Scalar components of a member type with their offset inside the member: a
`float` is one scalar, a `vector_float2` is `x` followed by `y`. -/
def components (abi : TargetABI) : CType → List (String × Nat)
  | .float => [("", 0)]
  | .vector_float2 => [(".x", 0), (".y", abi.floatSize)]

/-- Offsets of all the scalar components of a record, in declaration order. -/
def scalarLayout (abi : TargetABI) (fields : List Field) : List (String × Nat) :=
  (fields.zip (layout abi fields)).flatMap fun p =>
    (components abi p.1.ty).map fun c => (p.1.name ++ c.1, p.2.2 + c.2)

/-- Names of the members whose byte range `[offset, offset + size)` contains
byte `b` of the record. -/
def fieldsAt (abi : TargetABI) (fields : List Field) (b : Nat) : List String :=
  ((fields.zip (layout abi fields)).filter fun p =>
    decide (p.2.2 ≤ b ∧ b < p.2.2 + abi.sizeOf p.1.ty)).map fun p => p.1.name

/-- Names of the scalar components whose byte range contains byte `b` of the
record; every scalar is a `float`. -/
def scalarsAt (abi : TargetABI) (fields : List Field) (b : Nat) : List String :=
  ((scalarLayout abi fields).filter fun c =>
    decide (c.2 ≤ b ∧ b < c.2 + abi.floatSize)).map fun c => c.1

/-- Byte offset of element `i` of an array of records: `i * sizeof(record)`. -/
def arrayElemOffset (abi : TargetABI) (fields : List Field) (i : Nat) : Nat :=
  i * structSize abi fields

/-- Value of `sizeof` on an array of `n` records. -/
def arraySize (abi : TargetABI) (fields : List Field) (n : Nat) : Nat :=
  n * structSize abi fields

/-- Byte offset of member `name` of element `i` of an array of records. -/
def arrayFieldOffset (abi : TargetABI) (fields : List Field) (i : Nat) (name : String) :
    Option Nat :=
  (offsetOf abi fields name).map fun o => arrayElemOffset abi fields i + o

/-! ## Values and memory -/

/-- Memory is a sequence of bytes (numbers below 256). -/
abbrev Bytes := List Nat

/-- The `n` little-endian bytes of `v`; bits above `8 * n` are dropped. -/
def encodeLE : Nat → Nat → Bytes
  | 0, _ => []
  | n + 1, v => (v % 256) :: encodeLE n (v / 256)

/-- The number whose little-endian bytes are `bs`. -/
def decodeLE : Bytes → Nat
  | [] => 0
  | b :: bs => b + 256 * decodeLE bs

/-- Overwrite `bs.length` bytes of `mem` starting at `off`; `none` when the
range does not lie inside `mem`. -/
def writeBytes (mem : Bytes) (off : Nat) (bs : Bytes) : Option Bytes :=
  if off + bs.length ≤ mem.length then
    some (mem.take off ++ bs ++ mem.drop (off + bs.length))
  else none

/-- Read `len` bytes of `mem` starting at `off`; `none` when the range does not
lie inside `mem`. -/
def readBytes (mem : Bytes) (off len : Nat) : Option Bytes :=
  if off + len ≤ mem.length then some ((mem.drop off).take len) else none

/-- A value of type `vector_float2`: the bit patterns of its two floats. -/
structure vector_float2 where
  x : Nat
  y : Nat
  deriving DecidableEq, Repr

/-- Header lines 25-28: a value of the record `Vertex`. -/
structure Vertex where
  position : vector_float2
  texCoord : vector_float2
  deriving DecidableEq, Repr

/-- Header lines 31-35: a value of the record `HalftoneUniforms`. -/
structure HalftoneUniforms where
  dotSize : Nat
  intensity : Nat
  screenSize : vector_float2
  deriving DecidableEq, Repr

/-- Every float of the record is a 32-bit pattern. -/
def HalftoneUniforms.Is32 (u : HalftoneUniforms) : Prop :=
  u.dotSize < 2 ^ 32 ∧ u.intensity < 2 ^ 32 ∧ u.screenSize.x < 2 ^ 32 ∧ u.screenSize.y < 2 ^ 32

instance (u : HalftoneUniforms) : Decidable u.Is32 := by
  unfold HalftoneUniforms.Is32; infer_instance

/-- Store a `float` at byte offset `off`. -/
def storeFloat (abi : TargetABI) (mem : Bytes) (off : Nat) (v : Nat) : Option Bytes :=
  writeBytes mem off (encodeLE abi.floatSize v)

/-- Load a `float` from byte offset `off`. -/
def loadFloat (abi : TargetABI) (mem : Bytes) (off : Nat) : Option Nat :=
  (readBytes mem off abi.floatSize).map decodeLE

/-- Store a `vector_float2` at byte offset `off`: `x`, then `y` right after it. -/
def storeVec2 (abi : TargetABI) (mem : Bytes) (off : Nat) (v : vector_float2) : Option Bytes :=
  (storeFloat abi mem off v.x).bind fun m => storeFloat abi m (off + abi.floatSize) v.y

/-- Load a `vector_float2` from byte offset `off`. -/
def loadVec2 (abi : TargetABI) (mem : Bytes) (off : Nat) : Option vector_float2 :=
  (loadFloat abi mem off).bind fun x =>
  (loadFloat abi mem (off + abi.floatSize)).map fun y => ⟨x, y⟩

/-- Store a `Vertex` whose first byte is at `base`, member by member at the
offsets of the record layout. -/
def Vertex.store (abi : TargetABI) (mem : Bytes) (base : Nat) (v : Vertex) : Option Bytes :=
  (offsetOf abi Vertex_fields "position").bind fun p =>
  (offsetOf abi Vertex_fields "texCoord").bind fun t =>
  (storeVec2 abi mem (base + p) v.position).bind fun m =>
  storeVec2 abi m (base + t) v.texCoord

/-- Store a `HalftoneUniforms` whose first byte is at `base`. -/
def HalftoneUniforms.store (abi : TargetABI) (mem : Bytes) (base : Nat)
    (u : HalftoneUniforms) : Option Bytes :=
  (offsetOf abi HalftoneUniforms_fields "dotSize").bind fun d =>
  (offsetOf abi HalftoneUniforms_fields "intensity").bind fun i =>
  (offsetOf abi HalftoneUniforms_fields "screenSize").bind fun s =>
  (storeFloat abi mem (base + d) u.dotSize).bind fun m1 =>
  (storeFloat abi m1 (base + i) u.intensity).bind fun m2 =>
  storeVec2 abi m2 (base + s) u.screenSize

/-- Load a `HalftoneUniforms` whose first byte is at `base`. -/
def HalftoneUniforms.load (abi : TargetABI) (mem : Bytes) (base : Nat) :
    Option HalftoneUniforms :=
  (offsetOf abi HalftoneUniforms_fields "dotSize").bind fun d =>
  (offsetOf abi HalftoneUniforms_fields "intensity").bind fun i =>
  (offsetOf abi HalftoneUniforms_fields "screenSize").bind fun s =>
  (loadFloat abi mem (base + d)).bind fun ds =>
  (loadFloat abi mem (base + i)).bind fun it =>
  (loadVec2 abi mem (base + s)).map fun sz => ⟨ds, it, sz⟩

/-- The bytes of a `HalftoneUniforms` object: a zeroed buffer of
`sizeof(HalftoneUniforms)` bytes into which the value is stored. -/
def HalftoneUniforms.toBytes (abi : TargetABI) (u : HalftoneUniforms) : Option Bytes :=
  HalftoneUniforms.store abi (List.replicate (structSize abi HalftoneUniforms_fields) 0) 0 u

/-- Read a `HalftoneUniforms` object back from its bytes. -/
def HalftoneUniforms.ofBytes (abi : TargetABI) (mem : Bytes) : Option HalftoneUniforms :=
  HalftoneUniforms.load abi mem 0

/-- Store the vertices `vs` as the elements `i`, `i + 1`, ... of an array that
starts at byte 0 of `mem`. -/
def storeVertexArrayFrom (abi : TargetABI) : Bytes → Nat → List Vertex → Option Bytes
  | mem, _, [] => some mem
  | mem, i, v :: vs =>
    (Vertex.store abi mem (arrayElemOffset abi Vertex_fields i) v).bind fun m =>
    storeVertexArrayFrom abi m (i + 1) vs

/-- The bytes of an array of vertices: a zeroed buffer of `sizeof` the array
into which the elements are stored one by one. -/
def serializeVertices (abi : TargetABI) (vs : List Vertex) : Option Bytes :=
  storeVertexArrayFrom abi (List.replicate (arraySize abi Vertex_fields vs.length) 0) 0 vs

/-- The 16 bytes the contract promises for one vertex: `position.x`,
`position.y`, `texCoord.x`, `texCoord.y`, four bytes each. -/
def vertexBytes (v : Vertex) : Bytes :=
  encodeLE 4 v.position.x ++ encodeLE 4 v.position.y ++
    encodeLE 4 v.texCoord.x ++ encodeLE 4 v.texCoord.y

/-- The 16 bytes the contract promises for the uniform block: `dotSize`,
`intensity`, `screenSize.x`, `screenSize.y`, four bytes each. -/
def uniformBytes (u : HalftoneUniforms) : Bytes :=
  encodeLE 4 u.dotSize ++ encodeLE 4 u.intensity ++
    encodeLE 4 u.screenSize.x ++ encodeLE 4 u.screenSize.y

/-- Bit pattern of `-1.0f`. -/
def fNeg1 : Nat := 0xBF800000
/-- Bit pattern of `0.0f`. -/
def f0 : Nat := 0x00000000
/-- Bit pattern of `1.0f`. -/
def f1 : Nat := 0x3F800000
/-- Bit pattern of `4.0f`. -/
def f4 : Nat := 0x40800000
/-- Bit pattern of `0.5f`. -/
def fHalf : Nat := 0x3F000000
/-- Bit pattern of `800.0f`. -/
def f800 : Nat := 0x44480000
/-- Bit pattern of `600.0f`. -/
def f600 : Nat := 0x44160000

/-- The fullscreen quad of the spec scenario. -/
def quad : List Vertex :=
  [⟨⟨fNeg1, fNeg1⟩, ⟨f0, f1⟩⟩, ⟨⟨f1, fNeg1⟩, ⟨f1, f1⟩⟩,
   ⟨⟨fNeg1, f1⟩, ⟨f0, f0⟩⟩, ⟨⟨f1, f1⟩, ⟨f1, f0⟩⟩]

/-- The uniform block of the spec scenario. -/
def sampleUniforms : HalftoneUniforms := ⟨f4, fHalf, ⟨f800, f600⟩⟩


/-! ## Auxiliary facts -/

/-- On a target with 4-byte floats and an 8-byte `vector_float2`, the float
alignment is 1, 2 or 4 and the vector alignment is 1, 2, 4 or 8: a property
checked on these twelve targets holds on every such target. -/
theorem TargetABI.forall_of_cases (P : TargetABI → Prop)
    (h : ∀ fa ∈ [1, 2, 4], ∀ va ∈ [1, 2, 4, 8], P ⟨4, fa, 8, va⟩)
    (abi : TargetABI) (hf : abi.floatSize = 4) (hv : abi.vec2Size = 8)
    (hw : abi.WellFormed) : P abi := by
  obtain ⟨fs, fa, vs, va⟩ := abi
  simp only [TargetABI.WellFormed] at hf hv hw
  subst hf hv
  obtain ⟨h1, h2⟩ := hw
  have b1 : fa ≤ 4 := Nat.le_of_dvd (by norm_num) h1
  have b2 : va ≤ 8 := Nat.le_of_dvd (by norm_num) h2
  have m1 : fa ∈ [1, 2, 4] := by
    interval_cases fa <;> first | decide | exact absurd h1 (by decide)
  have m2 : va ∈ [1, 2, 4, 8] := by
    interval_cases va <;> first | decide | exact absurd h2 (by decide)
  exact h fa m1 va m2

theorem layout_Vertex (abi : TargetABI) (hf : abi.floatSize = 4) (hv : abi.vec2Size = 8)
    (hw : abi.WellFormed) :
    layout abi Vertex_fields = [("position", 0), ("texCoord", 8)] :=
  TargetABI.forall_of_cases (fun a => layout a Vertex_fields = [("position", 0), ("texCoord", 8)])
    (by decide) abi hf hv hw

theorem layout_HalftoneUniforms (abi : TargetABI) (hf : abi.floatSize = 4)
    (hv : abi.vec2Size = 8) (hw : abi.WellFormed) :
    layout abi HalftoneUniforms_fields = [("dotSize", 0), ("intensity", 4), ("screenSize", 8)] :=
  TargetABI.forall_of_cases
    (fun a => layout a HalftoneUniforms_fields =
      [("dotSize", 0), ("intensity", 4), ("screenSize", 8)])
    (by decide) abi hf hv hw

theorem structSize_Vertex (abi : TargetABI) (hf : abi.floatSize = 4) (hv : abi.vec2Size = 8)
    (hw : abi.WellFormed) : structSize abi Vertex_fields = 16 :=
  TargetABI.forall_of_cases (fun a => structSize a Vertex_fields = 16) (by decide) abi hf hv hw

theorem structSize_HalftoneUniforms (abi : TargetABI) (hf : abi.floatSize = 4)
    (hv : abi.vec2Size = 8) (hw : abi.WellFormed) :
    structSize abi HalftoneUniforms_fields = 16 :=
  TargetABI.forall_of_cases (fun a => structSize a HalftoneUniforms_fields = 16)
    (by decide) abi hf hv hw

theorem VertexInputIndex.mem_enumerators_vertex (e : VertexInputIndex) :
    e ∈ VertexInputIndex.enumerators := by
  cases e <;> decide

theorem TextureIndex.mem_enumerators_texture (e : TextureIndex) : e ∈ TextureIndex.enumerators := by
  cases e; decide

/-! ## Enumerations -/

/-- C1: the binding enumerators have the integer values
`VertexInputIndexVertices = 0`, `VertexInputIndexUniforms = 1` and
`TextureIndexScreen = 0`. -/
theorem enumerator_values :
    VertexInputIndex.toInt .VertexInputIndexVertices = 0 ∧
    VertexInputIndex.toInt .VertexInputIndexUniforms = 1 ∧
    TextureIndex.toInt .TextureIndexScreen = 0 :=
  ⟨rfl, rfl, rfl⟩

/-- C7: for each enumeration the declared enumerators are all of its values,
and an integer is the value of an enumerator exactly when it lies in
`0, 1, ..., n - 1`, with `n` the number of enumerators: the values start at 0
and leave no gap. -/
theorem enumerations_dense :
    (∀ e : VertexInputIndex, e ∈ VertexInputIndex.enumerators) ∧
    (∀ k : Int, k ∈ VertexInputIndex.enumerators.map VertexInputIndex.toInt ↔
      0 ≤ k ∧ k < VertexInputIndex.enumerators.length) ∧
    (∀ e : TextureIndex, e ∈ TextureIndex.enumerators) ∧
    (∀ k : Int, k ∈ TextureIndex.enumerators.map TextureIndex.toInt ↔
      0 ≤ k ∧ k < TextureIndex.enumerators.length) := by
  refine ⟨VertexInputIndex.mem_enumerators_vertex, ?_, TextureIndex.mem_enumerators_texture, ?_⟩
  · intro k
    simp only [VertexInputIndex.enumerators, VertexInputIndex.toInt, List.map_cons, List.map_nil,
      List.mem_cons, List.mem_singleton, List.length_cons, List.length_nil, List.not_mem_nil,
      or_false]
    constructor
    · rintro (h | h) <;> subst h <;> decide
    · rintro ⟨h0, h1⟩
      norm_num at h1
      omega
  · intro k
    simp only [TextureIndex.enumerators, TextureIndex.toInt, List.map_cons, List.map_nil,
      List.mem_singleton, List.length_cons, List.length_nil]
    constructor
    · rintro rfl
      decide
    · rintro ⟨h0, h1⟩
      norm_num at h1
      omega

/-- C9: the map from `VertexInputIndex` enumerators to binding slots is
injective, and in particular the vertex buffer slot differs from the uniform
buffer slot. -/
theorem VertexInputIndex_toInt_injective :
    Function.Injective VertexInputIndex.toInt ∧
    VertexInputIndex.toInt .VertexInputIndexVertices ≠
      VertexInputIndex.toInt .VertexInputIndexUniforms := by
  refine ⟨?_, by decide⟩
  intro a b h
  cases a <;> cases b <;> first | rfl | exact absurd h (by decide)

/-! ## Record layout -/

/-- C2: with 4-byte floats and an 8-byte `vector_float2` (of any alignment C
allows for these sizes), `Vertex` has size 16, `position` is at offset 0 and
`texCoord` at offset 8. -/
theorem Vertex_layout (abi : TargetABI) (hf : abi.floatSize = 4) (hv : abi.vec2Size = 8)
    (hw : abi.WellFormed) :
    structSize abi Vertex_fields = 16 ∧
    offsetOf abi Vertex_fields "position" = some 0 ∧
    offsetOf abi Vertex_fields "texCoord" = some 8 := by
  refine ⟨structSize_Vertex abi hf hv hw, ?_, ?_⟩ <;>
    rw [offsetOf, layout_Vertex abi hf hv hw] <;> decide

/-- Size and member offsets of `Vertex` on the simd target. -/
theorem Vertex_layout_witness :
    structSize abiSimd Vertex_fields = 16 ∧
    offsetOf abiSimd Vertex_fields "position" = some 0 ∧
    offsetOf abiSimd Vertex_fields "texCoord" = some 8 :=
  Vertex_layout abiSimd (by decide) (by decide) (by decide)

/-- C3: with 4-byte floats and an 8-byte `vector_float2`, the members of
`HalftoneUniforms` are at offsets `dotSize = 0`, `intensity = 4`,
`screenSize = 8`, and the size of the record is a multiple of 16. -/
theorem HalftoneUniforms_layout (abi : TargetABI) (hf : abi.floatSize = 4)
    (hv : abi.vec2Size = 8) (hw : abi.WellFormed) :
    offsetOf abi HalftoneUniforms_fields "dotSize" = some 0 ∧
    offsetOf abi HalftoneUniforms_fields "intensity" = some 4 ∧
    offsetOf abi HalftoneUniforms_fields "screenSize" = some 8 ∧
    16 ∣ structSize abi HalftoneUniforms_fields := by
  refine ⟨?_, ?_, ?_, ?_⟩
  · rw [offsetOf, layout_HalftoneUniforms abi hf hv hw]; decide
  · rw [offsetOf, layout_HalftoneUniforms abi hf hv hw]; decide
  · rw [offsetOf, layout_HalftoneUniforms abi hf hv hw]; decide
  · rw [structSize_HalftoneUniforms abi hf hv hw]

/-- Member offsets and size of `HalftoneUniforms` on the simd target. -/
theorem HalftoneUniforms_layout_witness :
    offsetOf abiSimd HalftoneUniforms_fields "dotSize" = some 0 ∧
    offsetOf abiSimd HalftoneUniforms_fields "intensity" = some 4 ∧
    offsetOf abiSimd HalftoneUniforms_fields "screenSize" = some 8 ∧
    16 ∣ structSize abiSimd HalftoneUniforms_fields :=
  HalftoneUniforms_layout abiSimd (by decide) (by decide) (by decide)

/-- C6: with 4-byte floats and an 8-byte `vector_float2`, both records are four
contiguous floats: the scalars of `Vertex` and of `HalftoneUniforms` are at
offsets 0, 4, 8, 12, the size of each record is 16 and equals the sum of the
sizes of its members, and every byte of each record lies in exactly one member
and in exactly one scalar. -/
theorem records_have_no_padding (abi : TargetABI) (hf : abi.floatSize = 4)
    (hv : abi.vec2Size = 8) (hw : abi.WellFormed) :
    scalarLayout abi Vertex_fields =
      [("position.x", 0), ("position.y", 4), ("texCoord.x", 8), ("texCoord.y", 12)] ∧
    scalarLayout abi HalftoneUniforms_fields =
      [("dotSize", 0), ("intensity", 4), ("screenSize.x", 8), ("screenSize.y", 12)] ∧
    structSize abi Vertex_fields = 16 ∧
    fieldSizeSum abi Vertex_fields = 16 ∧
    structSize abi HalftoneUniforms_fields = 16 ∧
    fieldSizeSum abi HalftoneUniforms_fields = 16 ∧
    (∀ b < 16, (fieldsAt abi Vertex_fields b).length = 1 ∧
      (scalarsAt abi Vertex_fields b).length = 1) ∧
    (∀ b < 16, (fieldsAt abi HalftoneUniforms_fields b).length = 1 ∧
      (scalarsAt abi HalftoneUniforms_fields b).length = 1) :=
  TargetABI.forall_of_cases
    (fun a =>
      scalarLayout a Vertex_fields =
        [("position.x", 0), ("position.y", 4), ("texCoord.x", 8), ("texCoord.y", 12)] ∧
      scalarLayout a HalftoneUniforms_fields =
        [("dotSize", 0), ("intensity", 4), ("screenSize.x", 8), ("screenSize.y", 12)] ∧
      structSize a Vertex_fields = 16 ∧
      fieldSizeSum a Vertex_fields = 16 ∧
      structSize a HalftoneUniforms_fields = 16 ∧
      fieldSizeSum a HalftoneUniforms_fields = 16 ∧
      (∀ b < 16, (fieldsAt a Vertex_fields b).length = 1 ∧
        (scalarsAt a Vertex_fields b).length = 1) ∧
      (∀ b < 16, (fieldsAt a HalftoneUniforms_fields b).length = 1 ∧
        (scalarsAt a HalftoneUniforms_fields b).length = 1))
    (by decide) abi hf hv hw

/-- Absence of padding in both records on the simd target. -/
theorem records_have_no_padding_witness :
    scalarLayout abiSimd Vertex_fields =
      [("position.x", 0), ("position.y", 4), ("texCoord.x", 8), ("texCoord.y", 12)] ∧
    scalarLayout abiSimd HalftoneUniforms_fields =
      [("dotSize", 0), ("intensity", 4), ("screenSize.x", 8), ("screenSize.y", 12)] ∧
    structSize abiSimd Vertex_fields = 16 ∧
    fieldSizeSum abiSimd Vertex_fields = 16 ∧
    structSize abiSimd HalftoneUniforms_fields = 16 ∧
    fieldSizeSum abiSimd HalftoneUniforms_fields = 16 ∧
    (∀ b < 16, (fieldsAt abiSimd Vertex_fields b).length = 1 ∧
      (scalarsAt abiSimd Vertex_fields b).length = 1) ∧
    (∀ b < 16, (fieldsAt abiSimd HalftoneUniforms_fields b).length = 1 ∧
      (scalarsAt abiSimd HalftoneUniforms_fields b).length = 1) :=
  records_have_no_padding abiSimd (by decide) (by decide) (by decide)

/-- C8: the C layout rule gives `Vertex` and `HalftoneUniforms` the same member
offsets, the same scalar offsets and the same size 16 whether `vector_float2`
is aligned to 4 (the per-component alignment of the spec) or to 8 (the
alignment of the simd vector type). -/
theorem layout_independent_of_vector_alignment :
    abiSpec.vec2Align = 4 ∧ abiSimd.vec2Align = 8 ∧
    layout abiSpec Vertex_fields = layout abiSimd Vertex_fields ∧
    layout abiSpec HalftoneUniforms_fields = layout abiSimd HalftoneUniforms_fields ∧
    scalarLayout abiSpec Vertex_fields = scalarLayout abiSimd Vertex_fields ∧
    scalarLayout abiSpec HalftoneUniforms_fields =
      scalarLayout abiSimd HalftoneUniforms_fields ∧
    structSize abiSpec Vertex_fields = 16 ∧ structSize abiSimd Vertex_fields = 16 ∧
    structSize abiSpec HalftoneUniforms_fields = 16 ∧
    structSize abiSimd HalftoneUniforms_fields = 16 := by
  decide


/-! ## Memory lemmas -/

theorem encodeLE_length (n v : Nat) : (encodeLE n v).length = n := by
  induction n generalizing v with
  | zero => rfl
  | succ n ih => simp [encodeLE, ih]

theorem decodeLE_encodeLE (n v : Nat) : decodeLE (encodeLE n v) = v % 256 ^ n := by
  induction n generalizing v with
  | zero => simp [encodeLE, decodeLE, Nat.mod_one]
  | succ n ih =>
    simp only [encodeLE, decodeLE, ih]
    rw [pow_succ, Nat.mul_comm (256 ^ n) 256, Nat.mod_mul]

/-- A successful write into `m` is also successful, with the same effect, when
`m` sits between `pre` and `post` in a larger memory. -/
theorem writeBytes_frame (pre post : Bytes) {m r bs : Bytes} {k : Nat}
    (h : writeBytes m k bs = some r) :
    writeBytes (pre ++ m ++ post) (pre.length + k) bs = some (pre ++ r ++ post) := by
  unfold writeBytes at h ⊢
  split at h
  · rename_i hle
    injection h with h
    subst h
    have h1 : pre.length + k + bs.length ≤ (pre ++ m ++ post).length := by
      simp only [List.length_append]; omega
    rw [if_pos h1]
    have t1 : List.take (pre.length + k) (pre ++ m ++ post) = pre ++ List.take k m := by
      rw [List.append_assoc, List.take_append, List.take_append_of_le_length (by omega)]
    have t2 : List.drop (pre.length + k + bs.length) (pre ++ m ++ post) =
        List.drop (k + bs.length) m ++ post := by
      rw [List.append_assoc, Nat.add_assoc, List.drop_append,
        List.drop_append_of_le_length (by omega)]
    rw [t1, t2]
    simp only [List.append_assoc]
  · cases h

theorem storeFloat_frame (abi : TargetABI) (pre post : Bytes) {m r : Bytes} {k v : Nat}
    (h : storeFloat abi m k v = some r) :
    storeFloat abi (pre ++ m ++ post) (pre.length + k) v = some (pre ++ r ++ post) :=
  writeBytes_frame pre post h

theorem storeVec2_frame (abi : TargetABI) (pre post : Bytes) {m r : Bytes} {k : Nat}
    {v : vector_float2} (h : storeVec2 abi m k v = some r) :
    storeVec2 abi (pre ++ m ++ post) (pre.length + k) v = some (pre ++ r ++ post) := by
  unfold storeVec2 at h ⊢
  obtain ⟨m1, h1, h2⟩ := Option.bind_eq_some.mp h
  rw [storeFloat_frame abi pre post h1, Option.some_bind, Nat.add_assoc]
  exact storeFloat_frame abi pre post h2

theorem Vertex.store_frame (abi : TargetABI) (pre post : Bytes) {m r : Bytes} {k : Nat}
    {v : Vertex} (h : Vertex.store abi m k v = some r) :
    Vertex.store abi (pre ++ m ++ post) (pre.length + k) v = some (pre ++ r ++ post) := by
  unfold Vertex.store at h ⊢
  obtain ⟨p, hp, h⟩ := Option.bind_eq_some.mp h
  obtain ⟨t, ht, h⟩ := Option.bind_eq_some.mp h
  obtain ⟨m1, h1, h2⟩ := Option.bind_eq_some.mp h
  rw [hp, Option.some_bind, ht, Option.some_bind, Nat.add_assoc,
    storeVec2_frame abi pre post h1, Option.some_bind, Nat.add_assoc]
  exact storeVec2_frame abi pre post h2

/-- Storing one vertex into a zeroed 16-byte object yields its four floats in
declaration order. -/
theorem Vertex.store_zeroed (abi : TargetABI) (hf : abi.floatSize = 4)
    (hv : abi.vec2Size = 8) (hw : abi.WellFormed) (v : Vertex) :
    Vertex.store abi (List.replicate 16 0) 0 v = some (vertexBytes v) := by
  refine TargetABI.forall_of_cases
    (fun a => Vertex.store a (List.replicate 16 0) 0 v = some (vertexBytes v)) ?_ abi hf hv hw
  intro fa hfa va hva
  simp only [List.mem_cons, List.mem_singleton, List.not_mem_nil, or_false] at hfa hva
  rcases hfa with rfl | rfl | rfl <;> rcases hva with rfl | rfl | rfl | rfl <;> rfl

theorem vertexBytes_length (v : Vertex) : (vertexBytes v).length = 16 := by
  simp [vertexBytes, encodeLE_length]

theorem flatMap_vertexBytes_length (vs : List Vertex) :
    (vs.flatMap vertexBytes).length = 16 * vs.length := by
  induction vs with
  | nil => rfl
  | cons v vs ih =>
    rw [List.flatMap_cons, List.length_append, vertexBytes_length, ih, List.length_cons]
    omega

/-- Storing the vertices `vs` as elements `i`, `i + 1`, ... into a memory whose
first `16 * i` bytes are `pre` and whose remaining bytes are zero. -/
theorem storeVertexArrayFrom_zeroed (abi : TargetABI) (hf : abi.floatSize = 4)
    (hv : abi.vec2Size = 8) (hw : abi.WellFormed) (vs : List Vertex) :
    ∀ (pre : Bytes) (i : Nat), pre.length = 16 * i →
      storeVertexArrayFrom abi (pre ++ List.replicate (16 * vs.length) 0) i vs =
        some (pre ++ vs.flatMap vertexBytes) := by
  induction vs with
  | nil =>
    intro pre i _
    simp [storeVertexArrayFrom]
  | cons v vs ih =>
    intro pre i hpre
    have hmem : pre ++ List.replicate (16 * (v :: vs).length) 0 =
        pre ++ List.replicate 16 0 ++ List.replicate (16 * vs.length) 0 := by
      rw [List.length_cons, List.append_assoc, List.append_cancel_left_eq,
        ← List.replicate_add]
      congr 1
      omega
    have hoff : arrayElemOffset abi Vertex_fields i = pre.length + 0 := by
      rw [arrayElemOffset, structSize_Vertex abi hf hv hw, hpre]
      omega
    rw [storeVertexArrayFrom, hmem, hoff,
      Vertex.store_frame abi pre _ (Vertex.store_zeroed abi hf hv hw v), Option.some_bind,
      ih (pre ++ vertexBytes v) (i + 1)
        (by rw [List.length_append, vertexBytes_length, hpre]; omega),
      List.flatMap_cons, List.append_assoc]


/-- Storing a uniform block into a zeroed 16-byte object yields its four floats
in declaration order. -/
theorem HalftoneUniforms.toBytes_eq (abi : TargetABI) (hf : abi.floatSize = 4)
    (hv : abi.vec2Size = 8) (hw : abi.WellFormed) (u : HalftoneUniforms) :
    u.toBytes abi = some (uniformBytes u) := by
  refine TargetABI.forall_of_cases
    (fun a => HalftoneUniforms.toBytes a u = some (uniformBytes u)) ?_ abi hf hv hw
  intro fa hfa va hva
  simp only [List.mem_cons, List.mem_singleton, List.not_mem_nil, or_false] at hfa hva
  rcases hfa with rfl | rfl | rfl <;> rcases hva with rfl | rfl | rfl | rfl <;> rfl

/-- Loading from the 16 bytes of a uniform block decodes each float from its
own four bytes. -/
theorem HalftoneUniforms.ofBytes_uniformBytes (abi : TargetABI) (hf : abi.floatSize = 4)
    (hv : abi.vec2Size = 8) (hw : abi.WellFormed) (u : HalftoneUniforms) :
    HalftoneUniforms.ofBytes abi (uniformBytes u) =
      some ⟨decodeLE (encodeLE 4 u.dotSize), decodeLE (encodeLE 4 u.intensity),
        ⟨decodeLE (encodeLE 4 u.screenSize.x), decodeLE (encodeLE 4 u.screenSize.y)⟩⟩ := by
  refine TargetABI.forall_of_cases
    (fun a => HalftoneUniforms.ofBytes a (uniformBytes u) =
      some ⟨decodeLE (encodeLE 4 u.dotSize), decodeLE (encodeLE 4 u.intensity),
        ⟨decodeLE (encodeLE 4 u.screenSize.x), decodeLE (encodeLE 4 u.screenSize.y)⟩⟩)
    ?_ abi hf hv hw
  intro fa hfa va hva
  simp only [List.mem_cons, List.mem_singleton, List.not_mem_nil, or_false] at hfa hva
  rcases hfa with rfl | rfl | rfl <;> rcases hva with rfl | rfl | rfl | rfl <;> rfl

theorem decodeLE_encodeLE_four {v : Nat} (h : v < 2 ^ 32) : decodeLE (encodeLE 4 v) = v := by
  rw [decodeLE_encodeLE]
  exact Nat.mod_eq_of_lt (by norm_num at h ⊢; exact h)

/-! ## Transport of values through memory -/

/-- C4: with 4-byte floats and an 8-byte `vector_float2`, writing a
`HalftoneUniforms` value made of four 32-bit patterns into a 16-byte object in
the declared layout succeeds, and reading the object back through the same
layout returns the same `dotSize`, `intensity`, `screenSize.x` and
`screenSize.y`. -/
theorem HalftoneUniforms_roundtrip (abi : TargetABI) (hf : abi.floatSize = 4)
    (hv : abi.vec2Size = 8) (hw : abi.WellFormed) (u : HalftoneUniforms) (hu : u.Is32) :
    ∃ mem, u.toBytes abi = some mem ∧ mem.length = 16 ∧
      HalftoneUniforms.ofBytes abi mem = some u := by
  obtain ⟨h1, h2, h3, h4⟩ := hu
  refine ⟨uniformBytes u, HalftoneUniforms.toBytes_eq abi hf hv hw u, ?_, ?_⟩
  · simp [uniformBytes, encodeLE_length]
  · rw [HalftoneUniforms.ofBytes_uniformBytes abi hf hv hw u, decodeLE_encodeLE_four h1,
      decodeLE_encodeLE_four h2, decodeLE_encodeLE_four h3, decodeLE_encodeLE_four h4]

/-- The round trip of the block `(dotSize = 4.0, intensity = 0.5,
screenSize = (800.0, 600.0))` on the simd target. -/
theorem HalftoneUniforms_roundtrip_witness :
    ∃ mem, sampleUniforms.toBytes abiSimd = some mem ∧ mem.length = 16 ∧
      HalftoneUniforms.ofBytes abiSimd mem = some sampleUniforms :=
  HalftoneUniforms_roundtrip abiSimd (by decide) (by decide) (by decide) sampleUniforms
    (by decide)

/-- C5: with 4-byte floats and an 8-byte `vector_float2`, serializing any
sequence of 4 vertices succeeds and produces exactly 64 bytes, which are, vertex
by vertex in sequence order, the four bytes of `position.x`, `position.y`,
`texCoord.x` and `texCoord.y`. -/
theorem serializeVertices_four (abi : TargetABI) (hf : abi.floatSize = 4)
    (hv : abi.vec2Size = 8) (hw : abi.WellFormed) (vs : List Vertex) (h4 : vs.length = 4) :
    serializeVertices abi vs = some (vs.flatMap vertexBytes) ∧
    (vs.flatMap vertexBytes).length = 64 := by
  constructor
  · have h := storeVertexArrayFrom_zeroed abi hf hv hw vs [] 0 rfl
    rw [List.nil_append, List.nil_append] at h
    rw [serializeVertices, arraySize, structSize_Vertex abi hf hv hw, Nat.mul_comm]
    exact h
  · rw [flatMap_vertexBytes_length, h4]

/-- Serialization of the fullscreen quad with positions
`(-1,-1), (1,-1), (-1,1), (1,1)` and texture coordinates
`(0,1), (1,1), (0,0), (1,0)` on the simd target. -/
theorem serializeVertices_four_witness :
    serializeVertices abiSimd quad = some (quad.flatMap vertexBytes) ∧
    (quad.flatMap vertexBytes).length = 64 :=
  serializeVertices_four abiSimd (by decide) (by decide) (by decide) quad (by decide)

/-! ## Arrays of vertices -/

/-- C10: with 4-byte floats and an 8-byte `vector_float2`, in an array of `n`
vertices element `i < n` starts at byte `16 * i`, its `position` is at
`16 * i` and its `texCoord` at `16 * i + 8`, the array occupies `16 * n` bytes
and contains the element, every element offset is a multiple of 8, and
consecutive elements are one record size apart, the record size being the sum
of the member sizes. -/
theorem Vertex_array_layout (abi : TargetABI) (hf : abi.floatSize = 4)
    (hv : abi.vec2Size = 8) (hw : abi.WellFormed) (n i : Nat) (hi : i < n) :
    arrayElemOffset abi Vertex_fields i = 16 * i ∧
    arrayFieldOffset abi Vertex_fields i "position" = some (16 * i) ∧
    arrayFieldOffset abi Vertex_fields i "texCoord" = some (16 * i + 8) ∧
    arraySize abi Vertex_fields n = 16 * n ∧
    arrayElemOffset abi Vertex_fields i + structSize abi Vertex_fields ≤
      arraySize abi Vertex_fields n ∧
    8 ∣ arrayElemOffset abi Vertex_fields i ∧
    arrayElemOffset abi Vertex_fields (i + 1) =
      arrayElemOffset abi Vertex_fields i + structSize abi Vertex_fields ∧
    structSize abi Vertex_fields = fieldSizeSum abi Vertex_fields := by
  obtain ⟨hs, hp, ht⟩ :
      structSize abi Vertex_fields = 16 ∧
      offsetOf abi Vertex_fields "position" = some 0 ∧
      offsetOf abi Vertex_fields "texCoord" = some 8 := by
    refine ⟨structSize_Vertex abi hf hv hw, ?_, ?_⟩ <;>
      rw [offsetOf, layout_Vertex abi hf hv hw] <;> decide
  have hsum : fieldSizeSum abi Vertex_fields = 16 := by
    simp [fieldSizeSum, Vertex_fields, TargetABI.sizeOf, hv]
  simp only [arrayElemOffset, arrayFieldOffset, arraySize, hs, hp, ht, hsum, Option.map_some']
  refine ⟨by omega, ?_, ?_, by omega, by omega, by omega, by omega, trivial⟩
  · congr 1
    omega
  · congr 1
    omega

/-- Offsets of the last element of a 4-vertex array on the simd target. -/
theorem Vertex_array_layout_witness :
    arrayElemOffset abiSimd Vertex_fields 3 = 16 * 3 ∧
    arrayFieldOffset abiSimd Vertex_fields 3 "position" = some (16 * 3) ∧
    arrayFieldOffset abiSimd Vertex_fields 3 "texCoord" = some (16 * 3 + 8) ∧
    arraySize abiSimd Vertex_fields 4 = 16 * 4 ∧
    arrayElemOffset abiSimd Vertex_fields 3 + structSize abiSimd Vertex_fields ≤
      arraySize abiSimd Vertex_fields 4 ∧
    8 ∣ arrayElemOffset abiSimd Vertex_fields 3 ∧
    arrayElemOffset abiSimd Vertex_fields (3 + 1) =
      arrayElemOffset abiSimd Vertex_fields 3 + structSize abiSimd Vertex_fields ∧
    structSize abiSimd Vertex_fields = fieldSizeSum abiSimd Vertex_fields :=
  Vertex_array_layout abiSimd (by decide) (by decide) (by decide) 4 3 (by decide)

end Halftone
